import Mathlib

/-
Verification of the notification-protocol layer specification and of the
exchangeable-function primitive of this repository.

Part A embeds `src/primitives/runtime-interface/src/wasm.rs`
(`ExchangeableFunction` / `RestoreImplementation`): the interior-mutable
`Cell<(T, ExchangeableFunctionState)>` becomes a record threaded explicitly
through the operations, and a Rust `panic!` becomes `none`.

Part B embeds the notification layer (substream lifecycle, bounded
notification queue, protocol-name negotiation, admission control and
configuration validation).  The implementation of that layer is not part of
this tree - only its integration tests are - so the definitions are modelled
from the specification document, as their doc comments state.
-/

namespace Wasm

/-- The state of an exchangeable function (`ExchangeableFunctionState` in
wasm.rs): either the original function is present or it has been replaced. -/
inductive ExchangeableFunctionState where
  | Original
  | Replaced
deriving DecidableEq, Repr

/-- `ExchangeableFunction<T>` wraps `Cell<(T, ExchangeableFunctionState)>`;
the cell content is embedded as an explicit record passed through the
operations. -/
structure ExchangeableFunction (T : Type) where
  impl : T
  state : ExchangeableFunctionState
deriving DecidableEq, Repr

/-- `ExchangeableFunction::new`: stores the implementation together with the
state `Original`. -/
def ExchangeableFunction.new {T : Type} (impl_ : T) : ExchangeableFunction T :=
  ⟨impl_, ExchangeableFunctionState.Original⟩

/-- `RestoreImplementation<T>` holds the original implementation to be put
back on drop; the `Option` mirrors the `Option<T>` field that is taken
exactly once, on drop. -/
structure RestoreImplementation (T : Type) where
  saved : Option T
deriving DecidableEq, Repr

/-- `ExchangeableFunction::replace_implementation`: panics (embedded as
`none`) when the state is already `Replaced`; otherwise stores
`(new_impl, Replaced)` in the cell and returns the guard holding the old
implementation. -/
def ExchangeableFunction.replace_implementation {T : Type}
    (f : ExchangeableFunction T) (new_impl : T) :
    Option (ExchangeableFunction T × RestoreImplementation T) :=
  match f.state with
  | ExchangeableFunctionState.Replaced => none
  | ExchangeableFunctionState.Original =>
      some (⟨new_impl, ExchangeableFunctionState.Replaced⟩, ⟨some f.impl⟩)

/-- `ExchangeableFunction::restore_orig_implementation`: sets the cell to
`(orig, Original)`. -/
def ExchangeableFunction.restore_orig_implementation {T : Type}
    (_f : ExchangeableFunction T) (orig : T) : ExchangeableFunction T :=
  ⟨orig, ExchangeableFunctionState.Original⟩

/-- `ExchangeableFunction::get`: returns the stored function pointer. -/
def ExchangeableFunction.get {T : Type} (f : ExchangeableFunction T) : T :=
  f.impl

/-- `Drop for RestoreImplementation`: takes the saved value (the `expect`
that the value is present becomes `none` when it is absent) and restores it
as the original implementation of the target function. -/
def RestoreImplementation.drop {T : Type} (g : RestoreImplementation T)
    (f : ExchangeableFunction T) : Option (ExchangeableFunction T) :=
  match g.saved with
  | none => none
  | some orig => some (f.restore_orig_implementation orig)

end Wasm

namespace Wasm

/-- C9: from state `Original`, `replace_implementation new_impl` succeeds,
`get` then returns `new_impl`, and dropping the returned guard restores
`get` to the original implementation with state `Original`, after which a
further `replace_implementation` succeeds again. -/
theorem replace_then_drop_roundtrip {T : Type} (f : ExchangeableFunction T)
    (new_impl : T) (h : f.state = ExchangeableFunctionState.Original) :
    ∃ f' g, f.replace_implementation new_impl = some (f', g) ∧
      f'.get = new_impl ∧
      ∃ f'', g.drop f' = some f'' ∧ f''.get = f.get ∧
        f''.state = ExchangeableFunctionState.Original ∧
        ∀ n : T, (f''.replace_implementation n).isSome = true := by
  obtain ⟨i, st⟩ := f
  cases st with
  | Replaced => simp at h
  | Original =>
      refine ⟨⟨new_impl, ExchangeableFunctionState.Replaced⟩, ⟨some i⟩, rfl, rfl, ?_⟩
      exact ⟨⟨i, ExchangeableFunctionState.Original⟩, rfl, rfl, rfl, fun n => rfl⟩

/-- Closed instance of C9 at a concrete exchangeable function. -/
theorem replace_then_drop_roundtrip_witness :
    ∃ f' g, (ExchangeableFunction.new 1).replace_implementation 2 = some (f', g) ∧
      f'.get = 2 ∧
      ∃ f'', g.drop f' = some f'' ∧ f''.get = (ExchangeableFunction.new 1).get ∧
        f''.state = ExchangeableFunctionState.Original ∧
        ∀ n : Nat, (f''.replace_implementation n).isSome = true :=
  replace_then_drop_roundtrip (ExchangeableFunction.new 1) 2 rfl

/-- C10: `replace_implementation` panics exactly when the state is
`Replaced`, and never panics on a freshly constructed function. -/
theorem replace_implementation_panics_iff {T : Type} (f : ExchangeableFunction T) (n : T) :
    (f.replace_implementation n = none ↔
        f.state = ExchangeableFunctionState.Replaced) ∧
    ∀ i m : T, (ExchangeableFunction.new i).replace_implementation m ≠ none := by
  constructor
  · obtain ⟨i, st⟩ := f
    cases st <;> simp [ExchangeableFunction.replace_implementation]
  · intro i m
    simp [ExchangeableFunction.new, ExchangeableFunction.replace_implementation]

end Wasm

namespace Network

/-- Modelled from the spec: `PeerId` is an opaque, globally unique peer
identity (the network implementation itself is not part of this tree, only
its integration tests); embedded as a natural number. -/
abbrev PeerId := Nat

/-- Modelled from the spec: protocol names are strings such as "/foo". -/
abbrev ProtocolName := String

/-- Modelled from the spec: a notification payload is a byte sequence. -/
abbrev Payload := List Nat

/-- Modelled from the spec: a substream lifecycle state,
`Closed → Opening → Open → Closing → Closed`. -/
inductive SubstreamState where
  | Closed
  | Opening
  | Open
  | Closing
deriving DecidableEq, Repr

/-- Modelled from the spec: the event shape consumed by upper layers. -/
inductive Event where
  | StreamOpened (remote : PeerId) (protocol : ProtocolName)
      (negotiated_fallback : Option ProtocolName)
  | StreamClosed (remote : PeerId) (protocol : ProtocolName)
  | NotificationsReceived (remote : PeerId)
      (messages : List (ProtocolName × Payload))
  | Dht
deriving DecidableEq, Repr

/-- Modelled from the spec: the per-(peer, protocol) substream record.  The
`opened` flag records whether a `StreamOpened` event has been emitted and
not yet matched by a `StreamClosed`; it reconciles the transition table
(`Closing → Closed` emits `StreamClosed`) with invariant 1 and with the rule
that a negotiation aborted before reaching `Open` emits no event.  `queue`
is the bounded outbound notification queue whose `capacity` is fixed at
substream creation; `reserved` counts queue slots exclusively reserved by
pending `ready()` calls of the reserved-slot sender; `maxSize` is the
protocol's `max_notification_size`. -/
structure Substream where
  state : SubstreamState
  opened : Bool
  queue : List Payload
  reserved : Nat
  capacity : Nat
  maxSize : Nat
deriving DecidableEq, Repr

/-- Modelled from the spec: a substream starts its life `Closed`, with an
empty queue and no reservations. -/
def initialSubstream (capacity maxSize : Nat) : Substream :=
  ⟨SubstreamState.Closed, false, [], 0, capacity, maxSize⟩

/-- Modelled from the spec: the queue has free capacity when the enqueued
payloads together with the exclusively reserved slots leave room. -/
def freeCapacity (s : Substream) : Bool :=
  s.queue.length + s.reserved < s.capacity

/-- Modelled from the spec: the fire-and-forget
`write_notification(peer, protocol, payload)` enqueues when the pair's
state is `Open`, the queue has free capacity and the payload does not
exceed `max_notification_size`; otherwise it silently drops the payload -
no error, no event, no state change. -/
def write_notification (s : Substream) (payload : Payload) : Substream :=
  if s.state = SubstreamState.Open ∧ freeCapacity s = true ∧
      payload.length ≤ s.maxSize then
    { s with queue := s.queue ++ [payload] }
  else s

/-- Modelled from the spec: the actions that drive one (peer, protocol)
pair's state machine; all transitions of a pair are serialized through a
single logical owner, so a pair's history is one action sequence. -/
inductive Action where
  | openRequest
  | negotiationSuccess (fallback : Option ProtocolName)
  | negotiationFailure
  | disconnect
  | remoteClose
  | teardownComplete
  | inboundPayload (payload : Payload)
  | writeLocal (payload : Payload)
  | drainQueue
deriving DecidableEq, Repr

/-- Modelled from the spec: the transition function of one (peer, protocol)
pair, returning the next substream record and the events published for this
pair.  `openRequest` is an admitted dial or inbound open request
(`Closed → Opening`); `negotiationSuccess` emits `StreamOpened`
(`Opening → Open`); `negotiationFailure` covers failed negotiation or a
connection drop before completion (`Opening → Closed`, no event);
`disconnect` is `disconnect_peer` (`Open`/`Opening → Closing`);
`remoteClose` covers a remote-initiated close or connection loss while
`Open`; `teardownComplete` finishes the teardown (`Closing → Closed`),
emitting `StreamClosed` only when a matching `StreamOpened` was emitted,
and releases the queue (no leaked queue state across churn);
`inboundPayload` is an arriving remote notification, published only while
`Open`, an oversized one being a local policy rejection (`Open → Closing`);
`writeLocal` is the fire-and-forget write path; `drainQueue` is the
transport write path consuming the queue head. -/
def step (remote : PeerId) (protocol : ProtocolName) (s : Substream) :
    Action → Substream × List Event
  | Action.openRequest =>
      if s.state = SubstreamState.Closed then
        ({ s with state := SubstreamState.Opening }, [])
      else (s, [])
  | Action.negotiationSuccess fb =>
      if s.state = SubstreamState.Opening then
        ({ s with state := SubstreamState.Open, opened := true },
          [Event.StreamOpened remote protocol fb])
      else (s, [])
  | Action.negotiationFailure =>
      if s.state = SubstreamState.Opening then
        ({ s with state := SubstreamState.Closed }, [])
      else (s, [])
  | Action.disconnect =>
      if s.state = SubstreamState.Open ∨ s.state = SubstreamState.Opening then
        ({ s with state := SubstreamState.Closing }, [])
      else (s, [])
  | Action.remoteClose =>
      if s.state = SubstreamState.Open then
        ({ s with state := SubstreamState.Closing }, [])
      else (s, [])
  | Action.teardownComplete =>
      if s.state = SubstreamState.Closing then
        if s.opened then
          ({ s with
              state := SubstreamState.Closed
              opened := false
              queue := []
              reserved := 0 },
            [Event.StreamClosed remote protocol])
        else
          ({ s with
              state := SubstreamState.Closed
              queue := []
              reserved := 0 }, [])
      else (s, [])
  | Action.inboundPayload p =>
      if s.state = SubstreamState.Open then
        if p.length ≤ s.maxSize then
          (s, [Event.NotificationsReceived remote [(protocol, p)]])
        else
          ({ s with state := SubstreamState.Closing }, [])
      else (s, [])
  | Action.writeLocal p => (write_notification s p, [])
  | Action.drainQueue =>
      match s.queue with
      | [] => (s, [])
      | _ :: rest => ({ s with queue := rest }, [])

/-- Modelled from the spec: the event trace of one pair produced by an
action sequence. -/
def runFrom (remote : PeerId) (protocol : ProtocolName) (s : Substream) :
    List Action → List Event
  | [] => []
  | a :: rest =>
      (step remote protocol s a).2 ++
        runFrom remote protocol (step remote protocol s a).1 rest

/-- Modelled from the spec: the well-formedness automaton of invariant 1.
`b` records whether an unmatched `StreamOpened` has been seen:
`StreamOpened` requires `b = false`, `StreamClosed` and
`NotificationsReceived` require `b = true`, so the sequence per pair is
`Opened, (Received)*, Closed` repeating, with `Closed` never unmatched and
`Received` never outside an open window. -/
def eventsOk (b : Bool) : List Event → Bool
  | [] => true
  | Event.StreamOpened _ _ _ :: rest => !b && eventsOk true rest
  | Event.StreamClosed _ _ :: rest => b && eventsOk false rest
  | Event.NotificationsReceived _ _ :: rest => b && eventsOk b rest
  | Event.Dht :: rest => eventsOk b rest

/-- Relation between the lifecycle state and the `opened` flag that holds
in every reachable substream. -/
def stateInv (s : Substream) : Prop :=
  (s.state = SubstreamState.Open → s.opened = true) ∧
  (s.state = SubstreamState.Opening → s.opened = false) ∧
  (s.state = SubstreamState.Closed → s.opened = false)

end Network

namespace Network

/-- Auxiliary fact: the fire-and-forget write path never changes the
lifecycle state. -/
theorem write_notification_state_eq (s : Substream) (p : Payload) :
    (write_notification s p).state = s.state := by
  unfold write_notification
  split <;> rfl

/-- Auxiliary fact: the fire-and-forget write path never changes the
`opened` flag. -/
theorem write_notification_opened_eq (s : Substream) (p : Payload) :
    (write_notification s p).opened = s.opened := by
  unfold write_notification
  split <;> rfl

/-- Every action preserves `stateInv` and extends the event trace in a way
the alternation automaton accepts, the automaton flag agreeing with the
`opened` flag of the substream. -/
theorem step_preserves (remote : PeerId) (protocol : ProtocolName)
    (s : Substream) (a : Action) (h : stateInv s) :
    stateInv (step remote protocol s a).1 ∧
    ∀ t : List Event, eventsOk (step remote protocol s a).1.opened t = true →
      eventsOk s.opened ((step remote protocol s a).2 ++ t) = true := by
  obtain ⟨st, op, q, res, cap, mx⟩ := s
  obtain ⟨h1, h2, h3⟩ := h
  cases a with
  | openRequest => cases st <;> cases op <;> simp_all [step, stateInv, eventsOk]
  | negotiationSuccess fb => cases st <;> cases op <;> simp_all [step, stateInv, eventsOk]
  | negotiationFailure => cases st <;> cases op <;> simp_all [step, stateInv, eventsOk]
  | disconnect => cases st <;> cases op <;> simp_all [step, stateInv, eventsOk]
  | remoteClose => cases st <;> cases op <;> simp_all [step, stateInv, eventsOk]
  | teardownComplete => cases st <;> cases op <;> simp_all [step, stateInv, eventsOk]
  | inboundPayload p =>
      rcases le_or_lt (List.length p) mx with hp | hp
      · cases st <;> cases op <;> simp_all [step, stateInv, eventsOk]
      · cases st <;> cases op <;>
          simp_all [step, stateInv, eventsOk, if_neg (Nat.not_le.mpr hp)]
  | writeLocal p =>
      cases st <;> cases op <;>
        simp_all [step, stateInv, eventsOk, write_notification_state_eq,
          write_notification_opened_eq]
  | drainQueue =>
      cases st <;> cases op <;> cases q <;> simp_all [step, stateInv, eventsOk]

/-- A substream satisfying `stateInv` only ever produces traces accepted by
the alternation automaton started at the `opened` flag. -/
theorem runFrom_eventsOk (remote : PeerId) (protocol : ProtocolName) :
    ∀ (acts : List Action) (s : Substream), stateInv s →
      eventsOk s.opened (runFrom remote protocol s acts) = true := by
  intro acts
  induction acts with
  | nil =>
      intro s _
      simp [runFrom, eventsOk]
  | cons a rest ih =>
      intro s h
      have hs := step_preserves remote protocol s a h
      simpa [runFrom] using
        hs.2 (runFrom remote protocol (step remote protocol s a).1 rest)
          (ih (step remote protocol s a).1 hs.1)

end Network

namespace Network

/-- C1: for every (peer, protocol) pair, the event sequence delivered for
that pair is a well-formed alternation `Opened, (Received)*, Closed`
repeating: every action sequence applied to a freshly created substream
produces a trace accepted by the alternation automaton, so a `StreamClosed`
is never emitted without a preceding unmatched `StreamOpened` and a
`NotificationsReceived` never appears outside an Opened..Closed window. -/
theorem notifications_state_consistent (remote : PeerId)
    (protocol : ProtocolName) (capacity maxSize : Nat) (acts : List Action) :
    eventsOk false
      (runFrom remote protocol (initialSubstream capacity maxSize) acts) = true := by
  have h := runFrom_eventsOk remote protocol acts
    (initialSubstream capacity maxSize) (by simp [stateInv, initialSubstream])
  simpa [initialSubstream] using h

/-- Modelled from the spec: the service keeps one substream record per
(peer, protocol) pair, each pair's transitions applied only to its own
record. -/
abbrev NetworkState := PeerId → ProtocolName → Substream

/-- Modelled from the spec: replace one pair's substream record, leaving
every other pair untouched. -/
def updatePair (st : NetworkState) (peer : PeerId) (protocol : ProtocolName)
    (s : Substream) : NetworkState :=
  fun p pr => if p = peer ∧ pr = protocol then s else st p pr

/-- Modelled from the spec: `disconnect_peer(peer, protocol)` forces that
pair's substream from `Open`/`Opening` into `Closing` regardless of slot
accounting and leaves every other pair alone; on a pair that is neither
`Open` nor `Opening` it does nothing.  It emits no event itself (the
matching `StreamClosed` is emitted when the teardown completes). -/
def disconnect_peer (st : NetworkState) (peer : PeerId)
    (protocol : ProtocolName) : NetworkState :=
  updatePair st peer protocol
    (step peer protocol (st peer protocol) Action.disconnect).1

/-- C8: `disconnect_peer` on an already-`Closed` pair is a no-op - every
pair's record, the target included, is unchanged and no event is emitted;
on an `Open` or `Opening` pair it forces exactly that pair into `Closing`,
keeping its queue, and never touches the same peer's other protocols or
any other peer. -/
theorem disconnect_peer_frame (st : NetworkState) (peer : PeerId)
    (protocol : ProtocolName) :
    ((st peer protocol).state = SubstreamState.Closed →
      ∀ p pr, disconnect_peer st peer protocol p pr = st p pr) ∧
    ((st peer protocol).state = SubstreamState.Open ∨
        (st peer protocol).state = SubstreamState.Opening →
      (disconnect_peer st peer protocol peer protocol).state =
          SubstreamState.Closing ∧
      (disconnect_peer st peer protocol peer protocol).queue =
          (st peer protocol).queue) ∧
    (∀ p pr, ¬ (p = peer ∧ pr = protocol) →
      disconnect_peer st peer protocol p pr = st p pr) ∧
    (step peer protocol (st peer protocol) Action.disconnect).2 = [] := by
  refine ⟨?_, ?_, ?_, ?_⟩
  · intro hc p pr
    unfold disconnect_peer updatePair
    by_cases h : p = peer ∧ pr = protocol
    · obtain ⟨hp, hpr⟩ := h
      subst hp; subst hpr
      simp [step, hc]
    · simp [h]
  · intro ho
    unfold disconnect_peer updatePair
    rcases ho with h | h <;> simp [step, h]
  · intro p pr h
    unfold disconnect_peer updatePair
    simp [h]
  · rcases hs : (st peer protocol).state <;> simp [step, hs]

/-- Concrete network state in which the pair (0, "/foo") is `Open` and the
pair (0, "/bar") is `Closed`. -/
def sampleState : NetworkState :=
  fun _ pr =>
    if pr = "/foo" then
      ⟨SubstreamState.Open, true, [], 0, 8, 16⟩
    else
      initialSubstream 8 16

/-- Closed instance of C8: disconnecting the `Open` pair (0, "/foo") of
`sampleState` moves it to `Closing` and leaves the `Closed` pair
(0, "/bar") untouched. -/
theorem disconnect_peer_frame_witness :
    (disconnect_peer sampleState 0 "/foo" 0 "/foo").state =
        SubstreamState.Closing ∧
    disconnect_peer sampleState 0 "/bar" 0 "/foo" = sampleState 0 "/foo" := by
  constructor
  · exact ((disconnect_peer_frame sampleState 0 "/foo").2.1 (Or.inl (by decide))).1
  · exact (disconnect_peer_frame sampleState 0 "/bar").1 (by decide) 0 "/foo"

end Network

namespace Network

/-- C4 (amended): `write_notification` enqueues the payload exactly when
the pair's state is `Open`, the queue has free capacity and the payload
does not exceed `max_notification_size`; in every other case it is a
silent drop - the substream is left completely unchanged and no event is
emitted.  In particular a payload written before the substream reaches
`Open` never enters the queue, hence is never delivered to the peer. -/
theorem write_notification_semantics (s : Substream) (p : Payload) :
    (write_notification s p = { s with queue := s.queue ++ [p] } ↔
      (s.state = SubstreamState.Open ∧ freeCapacity s = true ∧
        p.length ≤ s.maxSize)) ∧
    (¬ (s.state = SubstreamState.Open ∧ freeCapacity s = true ∧
        p.length ≤ s.maxSize) →
      write_notification s p = s) ∧
    (∀ remote protocol, (step remote protocol s (Action.writeLocal p)).2 = []) := by
  by_cases hc : s.state = SubstreamState.Open ∧ freeCapacity s = true ∧
      p.length ≤ s.maxSize
  · refine ⟨?_, fun h => absurd hc h, fun remote protocol => by simp [step]⟩
    simp [write_notification, hc]
  · have hw : write_notification s p = s := by
      simp [write_notification, hc]
    refine ⟨?_, fun _ => hw, fun remote protocol => by simp [step]⟩
    rw [hw]
    constructor
    · intro heq
      have hq := congrArg Substream.queue heq
      simp at hq
    · intro h
      exact absurd h hc

/-- Closed instance of the no-op branch of C4's amended statement: a write
on a still-`Closed` substream changes nothing. -/
theorem write_notification_semantics_witness :
    write_notification (initialSubstream 8 4) [1] = initialSubstream 8 4 :=
  (write_notification_semantics (initialSubstream 8 4) [1]).2.1 (by decide)

/-- Concrete `Open` substream with free capacity and size limit 4. -/
def oversizedTarget : Substream :=
  ⟨SubstreamState.Open, true, [], 0, 8, 4⟩

/-- C4 counterexample: on an `Open` substream with free queue capacity, an
oversized fire-and-forget payload is silently dropped, so "the payload is
enqueued if and only if the pair's state is Open and the queue has free
capacity" fails as stated at this input. -/
theorem write_notification_oversized_dropped :
    oversizedTarget.state = SubstreamState.Open ∧
    freeCapacity oversizedTarget = true ∧
    write_notification oversizedTarget [1, 2, 3, 4, 5] = oversizedTarget := by
  decide

end Network

namespace Network

/-- Modelled from the spec: the delivery pipeline of one open substream
seen end to end.  `pending` is the producer's remaining payload sequence
(sent strictly one after another, each send only after its `ready()`
resolved), `queue` is the bounded in-flight notification queue drained by
the transport write path, `delivered` is the sequence the remote peer's
event stream has yielded so far. -/
structure Channel where
  pending : List Payload
  queue : List Payload
  delivered : List Payload
  capacity : Nat
deriving DecidableEq, Repr

/-- Modelled from the spec: one scheduling choice - either the producer's
next `ready()` resolves and it sends, or the drain side delivers the queue
head to the remote event stream. -/
inductive ChanOp where
  | send
  | drain
deriving DecidableEq, Repr

/-- Modelled from the spec: `send` is enabled only when `ready()` can
resolve, i.e. the bounded queue has room - backpressure suspends the
producer instead of growing the queue; `drain` is enabled whenever the
queue is nonempty and delivers the head in FIFO order.  A disabled
operation yields `none` (that schedule does not exist). -/
def chanStep (c : Channel) : ChanOp → Option Channel
  | ChanOp.send =>
      match c.pending with
      | [] => none
      | p :: rest =>
          if c.queue.length < c.capacity then
            some ⟨rest, c.queue ++ [p], c.delivered, c.capacity⟩
          else none
  | ChanOp.drain =>
      match c.queue with
      | [] => none
      | p :: rest => some ⟨c.pending, rest, c.delivered ++ [p], c.capacity⟩

/-- Modelled from the spec: a finite schedule of producer and drain steps. -/
def chanRun (c : Channel) : List ChanOp → Option Channel
  | [] => some c
  | op :: ops =>
      match chanStep c op with
      | none => none
      | some c' => chanRun c' ops

/-- Every schedule preserves the payload sequence
`delivered ++ queue ++ pending`, the capacity, and the queue bound. -/
theorem chanRun_invariant :
    ∀ (ops : List ChanOp) (c c' : Channel), chanRun c ops = some c' →
      c'.delivered ++ c'.queue ++ c'.pending =
        c.delivered ++ c.queue ++ c.pending ∧
      c'.capacity = c.capacity ∧
      (c.queue.length ≤ c.capacity → c'.queue.length ≤ c'.capacity) := by
  intro ops
  induction ops with
  | nil =>
      intro c c' h
      simp [chanRun] at h
      subst h
      exact ⟨rfl, rfl, fun h => h⟩
  | cons op ops ih =>
      intro c c' h
      simp only [chanRun] at h
      cases hs : chanStep c op with
      | none => rw [hs] at h; exact absurd h (by simp)
      | some c₁ =>
          rw [hs] at h
          obtain ⟨h1, h2, h3⟩ := ih c₁ c' h
          cases op with
          | send =>
              obtain ⟨st, q, d, cap⟩ := c
              cases st with
              | nil => simp [chanStep] at hs
              | cons p rest =>
                  simp only [chanStep] at hs
                  by_cases hq : q.length < cap
                  · rw [if_pos hq] at hs
                    obtain rfl : c₁ = ⟨rest, q ++ [p], d, cap⟩ := by
                      injection hs with hs; exact hs.symm
                    refine ⟨?_, h2, fun _ => h3 (by simpa using hq)⟩
                    rw [h1]; simp
                  · rw [if_neg hq] at hs; exact absurd hs (by simp)
          | drain =>
              obtain ⟨st, q, d, cap⟩ := c
              cases q with
              | nil => simp [chanStep] at hs
              | cons p rest =>
                  simp only [chanStep] at hs
                  obtain rfl : c₁ = ⟨st, rest, d ++ [p], cap⟩ := by
                    injection hs with hs; exact hs.symm
                  refine ⟨?_, h2, fun hb => h3 (by simp at hb ⊢; omega)⟩
                  rw [h1]; simp

/-- C2: for every payload sequence sent sequentially through the
reserved-slot sender - each send enabled only once its `ready()` resolved -
and for every schedule of sends and drains (however slowly the receiver
drains), once all payloads have been sent and drained the remote peer has
received exactly the original payloads, each exactly once and in order. -/
theorem notifications_back_pressure (msgs : List Payload) (capacity : Nat)
    (ops : List ChanOp) (c' : Channel)
    (h : chanRun ⟨msgs, [], [], capacity⟩ ops = some c')
    (hdone : c'.pending = [] ∧ c'.queue = []) :
    c'.delivered = msgs := by
  have hinv := (chanRun_invariant ops ⟨msgs, [], [], capacity⟩ c' h).1
  rw [hdone.1, hdone.2] at hinv
  simpa using hinv

/-- Closed instance of C2: three payloads pushed through a queue of
capacity one arrive exactly once and in order. -/
theorem notifications_back_pressure_witness :
    (Channel.mk [] [] [[0], [1], [2]] 1).delivered = [[0], [1], [2]] :=
  notifications_back_pressure [[0], [1], [2]] 1
    [ChanOp.send, ChanOp.drain, ChanOp.send, ChanOp.drain,
      ChanOp.send, ChanOp.drain]
    ⟨[], [], [[0], [1], [2]], 1⟩ (by decide) (by decide)

end Network

namespace Network

/-- Modelled from the spec: a protocol descriptor - canonical name, ordered
fallback names, size limit and optional handshake - configured once and
immutable thereafter. -/
structure ProtocolDescriptor where
  name : ProtocolName
  fallback_names : List ProtocolName
  max_notification_size : Nat
  handshake : Option Payload
deriving DecidableEq, Repr

/-- Modelled from the spec: during establishment the initiator offers its
canonical name first, then the fallbacks in declared order. -/
def offeredNames (d : ProtocolDescriptor) : List ProtocolName :=
  d.name :: d.fallback_names

/-- Modelled from the spec: a node supports a name when it is its canonical
name or one of its declared fallback names. -/
def supports (d : ProtocolDescriptor) (n : ProtocolName) : Bool :=
  n == d.name || d.fallback_names.contains n

/-- Modelled from the spec: the responder selects the first offered name it
also supports; when no name is mutually supported, establishment silently
fails for this protocol. -/
def negotiate (i r : ProtocolDescriptor) : Option ProtocolName :=
  (offeredNames i).find? (supports r)

/-- Modelled from the spec: the initiator's `negotiated_fallback` reports
the selected fallback, `none` when the canonical name was selected. -/
def initiatorFallback (i : ProtocolDescriptor) (selected : ProtocolName) :
    Option ProtocolName :=
  if selected = i.name then none else some selected

/-- Modelled from the spec: the `StreamOpened` event the initiator observes
after successful negotiation - its own canonical name, with the selected
fallback reported. -/
def initiatorOpenedEvent (remote : PeerId) (i : ProtocolDescriptor)
    (selected : ProtocolName) : Event :=
  Event.StreamOpened remote i.name (initiatorFallback i selected)

/-- Modelled from the spec: the responder observes the protocol under the
name it natively supports, with `negotiated_fallback = none` from its own
perspective. -/
def responderOpenedEvent (remote : PeerId) (selected : ProtocolName) : Event :=
  Event.StreamOpened remote selected none

/-- Protocol configured with canonical name "/new" and fallback "/old". -/
def protoNew : ProtocolDescriptor :=
  ⟨"/new", ["/old"], 1048576, none⟩

/-- Protocol supporting only "/old". -/
def protoOld : ProtocolDescriptor :=
  ⟨"/old", [], 1048576, none⟩

/-- C3: when the initiator offers canonical "/new" with fallback "/old" and
the responder supports only "/old", negotiation selects "/old"; the
initiator observes `StreamOpened` with protocol "/new" and
`negotiated_fallback = some "/old"` while the responder observes protocol
"/old" with `negotiated_fallback = none`; and in general the initiator's
`negotiated_fallback` is `none` exactly when the responder supports the
canonical name (the canonical name matched on both sides). -/
theorem fallback_name_working :
    negotiate protoNew protoOld = some "/old" ∧
    initiatorOpenedEvent 7 protoNew "/old" =
      Event.StreamOpened 7 "/new" (some "/old") ∧
    responderOpenedEvent 9 "/old" = Event.StreamOpened 9 "/old" none ∧
    ∀ i r sel, negotiate i r = some sel →
      (initiatorFallback i sel = none ↔ supports r i.name = true) := by
  refine ⟨by decide, by decide, by decide, ?_⟩
  intro i r sel h
  unfold negotiate offeredNames at h
  by_cases hs : supports r i.name = true
  · rw [List.find?_cons_of_pos _ hs] at h
    injection h with h
    subst h
    simp [initiatorFallback, hs]
  · rw [List.find?_cons_of_neg _ hs] at h
    have hsel : supports r sel = true := List.find?_some h
    have hne : ¬ (sel = i.name) := by
      intro he
      rw [he] at hsel
      exact hs hsel
    simp [initiatorFallback, hne, hs]

/-- Closed instance of the general clause of C3: for the "/new"-with-
fallback-"/old" initiator against the "/old"-only responder, the selected
name "/old" is reported as a fallback precisely because the responder does
not support "/new". -/
theorem fallback_name_working_witness :
    initiatorFallback protoNew "/old" = none ↔
      supports protoOld protoNew.name = true :=
  fallback_name_working.2.2.2 protoNew protoOld "/old" (by decide)

end Network

namespace Network

/-- Modelled from the spec: the errors of the reserved-slot sender path. -/
inductive SenderError where
  | NoSuchPeerOrProtocol
  | NotificationTooLarge
deriving DecidableEq, Repr

/-- Modelled from the spec: `notification_sender(peer, protocol)` fails
with `NoSuchPeerOrProtocol` when no `Open` substream exists for the pair,
and otherwise hands out a sender handle for it. -/
def notification_sender (s : Substream) : Except SenderError Unit :=
  if s.state = SubstreamState.Open then Except.ok ()
  else Except.error SenderError.NoSuchPeerOrProtocol

/-- Modelled from the spec: `ready()` suspends the caller until a queue
slot is reserved exclusively for it; it is therefore enabled exactly when
the substream is still `Open` and an unreserved slot exists, and resolving
it records the exclusive reservation. -/
def senderReady (s : Substream) : Option Substream :=
  if s.state = SubstreamState.Open ∧ s.queue.length + s.reserved < s.capacity then
    some { s with reserved := s.reserved + 1 }
  else none

/-- Modelled from the spec: `send(payload)` after a resolved `ready()`
consumes the reservation and enqueues - except that a payload exceeding
`max_notification_size` fails with `NotificationTooLarge`, dropping the
payload and releasing the slot without affecting the rest of the
substream state. -/
def senderSend (s : Substream) (p : Payload) : Except SenderError Substream :=
  if p.length ≤ s.maxSize then
    Except.ok { s with queue := s.queue ++ [p], reserved := s.reserved - 1 }
  else Except.error SenderError.NotificationTooLarge

/-- C5 (amended): `notification_sender` returns `NoSuchPeerOrProtocol`
exactly when the pair has no `Open` substream; once `ready()` has resolved,
`send(payload)` enqueues the payload - the reserved slot guarantees the
queue bound is kept, with no capacity race - provided the payload does not
exceed `max_notification_size`; an oversized payload instead fails with
`NotificationTooLarge` and is never enqueued. -/
theorem notification_sender_spec (s s' : Substream) (p : Payload) :
    (notification_sender s = Except.error SenderError.NoSuchPeerOrProtocol ↔
      ¬ s.state = SubstreamState.Open) ∧
    (senderReady s = some s' →
      (p.length ≤ s.maxSize →
        senderSend s' p =
          Except.ok { s' with queue := s'.queue ++ [p], reserved := s'.reserved - 1 } ∧
        (s'.queue ++ [p]).length ≤ s'.capacity) ∧
      (s.maxSize < p.length →
        senderSend s' p = Except.error SenderError.NotificationTooLarge)) := by
  constructor
  · unfold notification_sender
    by_cases hs : s.state = SubstreamState.Open
    · simp [hs]
    · simp [hs]
  · intro hr
    unfold senderReady at hr
    by_cases hc : s.state = SubstreamState.Open ∧
        s.queue.length + s.reserved < s.capacity
    · rw [if_pos hc] at hr
      injection hr with hr
      subst hr
      constructor
      · intro hp
        constructor
        · unfold senderSend
          rw [if_pos (by simpa using hp)]
        · simp
          omega
      · intro hp
        unfold senderSend
        rw [if_neg (by simp; omega)]
    · rw [if_neg hc] at hr
      exact absurd hr (by simp)

/-- Closed instance of the happy path of C5's amended statement: on an
`Open` substream with an empty queue of capacity 8 and size limit 4, the
sender is obtained, `ready()` reserves a slot, and `send` enqueues a
payload of length 3 while keeping the queue within capacity. -/
theorem notification_sender_spec_witness :
    senderSend ⟨SubstreamState.Open, true, [], 1, 8, 4⟩ [1, 2, 3] =
      Except.ok ⟨SubstreamState.Open, true, [[1, 2, 3]], 0, 8, 4⟩ ∧
    (([] : List Payload) ++ [[1, 2, 3]]).length ≤ 8 :=
  ((notification_sender_spec ⟨SubstreamState.Open, true, [], 0, 8, 4⟩
      ⟨SubstreamState.Open, true, [], 1, 8, 4⟩ [1, 2, 3]).2
    (by rfl)).1 (by decide)

/-- C5 counterexample: on an `Open` substream with free capacity and size
limit 4, `notification_sender` succeeds and `ready()` resolves, yet
`send` of a 5-byte payload does not enqueue it - it fails with
`NotificationTooLarge` - so "after ready() resolves, send(payload) is
guaranteed to enqueue" fails as stated at this input. -/
theorem notification_sender_oversized :
    notification_sender ⟨SubstreamState.Open, true, [], 0, 8, 4⟩ =
      Except.ok () ∧
    senderReady ⟨SubstreamState.Open, true, [], 0, 8, 4⟩ =
      some ⟨SubstreamState.Open, true, [], 1, 8, 4⟩ ∧
    senderSend ⟨SubstreamState.Open, true, [], 1, 8, 4⟩ [1, 2, 3, 4, 5] =
      Except.error SenderError.NotificationTooLarge := by
  refine ⟨rfl, rfl, rfl⟩

end Network

namespace Network

/-- Modelled from the spec: the transport selection, `Memory` or `Normal`. -/
inductive TransportConfig where
  | MemoryOnly
  | Normal
deriving DecidableEq, Repr

/-- Modelled from the spec: a configured address is either in
memory-address form or an ordinary (e.g. ip/tcp) address. -/
inductive Multiaddr where
  | memory (port : Nat)
  | tcp (host : Nat) (port : Nat)
deriving DecidableEq, Repr

/-- Modelled from the spec: whether an address is in memory-address form. -/
def Multiaddr.isMemory : Multiaddr → Bool
  | Multiaddr.memory _ => true
  | Multiaddr.tcp _ _ => false

/-- Modelled from the spec: whether the selected transport is the memory
transport. -/
def transportIsMemory : TransportConfig → Bool
  | TransportConfig.MemoryOnly => true
  | TransportConfig.Normal => false

/-- Modelled from the spec: the configuration surface relevant to the
address/transport consistency check - listen, public, boot-node and
reserved-node addresses plus the transport kind. -/
structure NetworkConfiguration where
  listen_addresses : List Multiaddr
  public_addresses : List Multiaddr
  boot_nodes : List (Multiaddr × PeerId)
  reserved_nodes : List (Multiaddr × PeerId)
  transport : TransportConfig
deriving DecidableEq, Repr

/-- Modelled from the spec: every configured address, of all four kinds. -/
def configAddresses (c : NetworkConfiguration) : List Multiaddr :=
  c.listen_addresses ++ c.public_addresses ++
    c.boot_nodes.map Prod.fst ++ c.reserved_nodes.map Prod.fst

/-- Modelled from the spec: the fatal configuration error reported when an
address does not match the transport ("don't match the transport"). -/
inductive ConfigError where
  | TransportMismatch
deriving DecidableEq, Repr

/-- Modelled from the spec: service construction validates, before any
network activity, that every configured address matches the selected
transport kind, and otherwise fails with the transport-mismatch error. -/
def buildService (c : NetworkConfiguration) : Except ConfigError Unit :=
  if (configAddresses c).all
      (fun a => a.isMemory == transportIsMemory c.transport) then
    Except.ok ()
  else Except.error ConfigError.TransportMismatch

/-- Memory-transport configuration with one tcp listen address. -/
def memoryTransportTcpListen : NetworkConfiguration :=
  ⟨[Multiaddr.tcp 127 30333], [], [], [], TransportConfig.MemoryOnly⟩

/-- Normal-transport configuration with one memory reserved-node address. -/
def normalTransportMemoryReserved : NetworkConfiguration :=
  ⟨[Multiaddr.tcp 127 30333], [], [], [(Multiaddr.memory 42, 5)],
    TransportConfig.Normal⟩

/-- C6: construction fails with the transport-mismatch error exactly when
some configured address (listen, public, boot-node or reserved-node) does
not match the selected transport kind - so both directions fail (a
non-memory address under the memory transport, and a memory address under
the normal transport, as the two concrete configurations show) and no
other construction input triggers this error. -/
theorem ensure_addresses_consistent_with_transport (c : NetworkConfiguration) :
    (buildService c = Except.error ConfigError.TransportMismatch ↔
      ∃ a ∈ configAddresses c,
        ¬ a.isMemory = transportIsMemory c.transport) ∧
    (buildService c = Except.ok () ↔
      ∀ a ∈ configAddresses c, a.isMemory = transportIsMemory c.transport) ∧
    buildService memoryTransportTcpListen =
      Except.error ConfigError.TransportMismatch ∧
    buildService normalTransportMemoryReserved =
      Except.error ConfigError.TransportMismatch := by
  refine ⟨?_, ?_, rfl, rfl⟩
  · unfold buildService
    by_cases hall : (configAddresses c).all
        (fun a => a.isMemory == transportIsMemory c.transport) = true
    · rw [if_pos hall]
      simp only [List.all_eq_true, beq_iff_eq] at hall
      constructor
      · intro h
        exact absurd h (by simp)
      · rintro ⟨a, ha, hne⟩
        exact absurd (hall a ha) hne
    · rw [if_neg hall]
      simp only [List.all_eq_true, beq_iff_eq, not_forall] at hall
      constructor
      · intro _
        obtain ⟨a, ha, hne⟩ := hall
        exact ⟨a, ha, hne⟩
      · intro _
        rfl
  · unfold buildService
    by_cases hall : (configAddresses c).all
        (fun a => a.isMemory == transportIsMemory c.transport) = true
    · rw [if_pos hall]
      simp only [List.all_eq_true, beq_iff_eq] at hall
      simp only [true_iff]
      exact hall
    · rw [if_neg hall]
      simp only [List.all_eq_true, beq_iff_eq, not_forall] at hall
      constructor
      · intro h
        exact absurd h (by simp)
      · intro hforall
        obtain ⟨a, ha, hne⟩ := hall
        exact absurd (hforall a ha) hne

end Network

namespace Network

/-- Closed instance of C6: the memory-transport configuration with a tcp
listen address is rejected with the transport-mismatch error. -/
theorem ensure_addresses_consistent_with_transport_witness :
    buildService memoryTransportTcpListen =
      Except.error ConfigError.TransportMismatch :=
  (ensure_addresses_consistent_with_transport memoryTransportTcpListen).1.mpr
    ⟨Multiaddr.tcp 127 30333, by decide, by decide⟩

/-- Modelled from the spec: a peer is either Reserved (always eligible,
exempt from slot accounting) or Regular (bounded by the configured
capacities). -/
inductive PeerClass where
  | Reserved
  | Regular
deriving DecidableEq, Repr

/-- Modelled from the spec: the PeerSetManager's slot accounting - the
configured `in_peers` and `out_peers` capacities and the used counters for
Regular peers. -/
structure PeerSetManager where
  in_peers : Nat
  out_peers : Nat
  in_peers_used : Nat
  out_peers_used : Nat
deriving DecidableEq, Repr

/-- Modelled from the spec: a fresh manager has no used slots. -/
def initialManager (in_peers out_peers : Nat) : PeerSetManager :=
  ⟨in_peers, out_peers, 0, 0⟩

/-- Modelled from the spec: the admission-relevant operations - an inbound
or outbound connection attempt by a peer of a given class, and the release
of a previously counted connection when no protocol remains connected. -/
inductive AdmissionOp where
  | inbound (cls : PeerClass)
  | outbound (cls : PeerClass)
  | closeInbound (cls : PeerClass)
  | closeOutbound (cls : PeerClass)
deriving DecidableEq, Repr

/-- Modelled from the spec: one admission decision.  A Reserved peer is
always accepted and never counted; a Regular peer is accepted only when a
slot is free, in which case the used counter grows; closing a Regular
connection returns its slot.  The returned Bool tells whether the attempt
was accepted (refusal creates no state). -/
def admStep (m : PeerSetManager) : AdmissionOp → PeerSetManager × Bool
  | AdmissionOp.inbound PeerClass.Reserved => (m, true)
  | AdmissionOp.inbound PeerClass.Regular =>
      if m.in_peers_used < m.in_peers then
        ({ m with in_peers_used := m.in_peers_used + 1 }, true)
      else (m, false)
  | AdmissionOp.outbound PeerClass.Reserved => (m, true)
  | AdmissionOp.outbound PeerClass.Regular =>
      if m.out_peers_used < m.out_peers then
        ({ m with out_peers_used := m.out_peers_used + 1 }, true)
      else (m, false)
  | AdmissionOp.closeInbound PeerClass.Reserved => (m, true)
  | AdmissionOp.closeInbound PeerClass.Regular =>
      ({ m with in_peers_used := m.in_peers_used - 1 }, true)
  | AdmissionOp.closeOutbound PeerClass.Reserved => (m, true)
  | AdmissionOp.closeOutbound PeerClass.Regular =>
      ({ m with out_peers_used := m.out_peers_used - 1 }, true)

/-- Modelled from the spec: a sequence of admission decisions. -/
def admRun (m : PeerSetManager) : List AdmissionOp → PeerSetManager
  | [] => m
  | op :: ops => admRun (admStep m op).1 ops

/-- Modelled from the spec: the acceptance outcomes of a sequence of
admission decisions, in order. -/
def admAccepts (m : PeerSetManager) : List AdmissionOp → List Bool
  | [] => []
  | op :: ops => (admStep m op).2 :: admAccepts (admStep m op).1 ops

/-- Modelled from the spec: invariant 4, the used counters stay within the
configured capacities. -/
def slotsOk (m : PeerSetManager) : Prop :=
  m.in_peers_used ≤ m.in_peers ∧ m.out_peers_used ≤ m.out_peers

/-- Every admission decision preserves the slot invariant. -/
theorem admStep_slotsOk (m : PeerSetManager) (op : AdmissionOp)
    (h : slotsOk m) : slotsOk (admStep m op).1 := by
  obtain ⟨h1, h2⟩ := h
  unfold slotsOk
  cases op with
  | inbound cls =>
      cases cls
      · exact ⟨h1, h2⟩
      · simp only [admStep]
        split
        next hc => exact ⟨hc, h2⟩
        next hc => exact ⟨h1, h2⟩
  | outbound cls =>
      cases cls
      · exact ⟨h1, h2⟩
      · simp only [admStep]
        split
        next hc => exact ⟨h1, hc⟩
        next hc => exact ⟨h1, h2⟩
  | closeInbound cls =>
      cases cls
      · exact ⟨h1, h2⟩
      · exact ⟨Nat.le_trans (Nat.sub_le _ _) h1, h2⟩
  | closeOutbound cls =>
      cases cls
      · exact ⟨h1, h2⟩
      · exact ⟨h1, Nat.le_trans (Nat.sub_le _ _) h2⟩

end Network

namespace Network

/-- Any sequence of admission decisions preserves the slot invariant. -/
theorem admRun_slotsOk : ∀ (ops : List AdmissionOp) (m : PeerSetManager),
    slotsOk m → slotsOk (admRun m ops) := by
  intro ops
  induction ops with
  | nil =>
      intro m h
      simpa [admRun] using h
  | cons op ops ih =>
      intro m h
      exact ih _ (admStep_slotsOk m op h)

/-- C7: starting from a fresh manager, every sequence of admission
decisions keeps `in_peers_used` within the `in_peers` capacity and
`out_peers_used` within the `out_peers` capacity; a Reserved peer is
always eligible (its inbound attempt is always accepted); concretely, a
manager whose `in_peers` capacity is unbounded (u32 maximum) accepts all
32 concurrent inbound Regular connections and counts 32 used slots; and
one (peer, protocol) pair going through admission, `Open` and close
produces exactly one matching `StreamClosed` per `StreamOpened` under the
configured protocol name. -/
theorem lots_of_incoming_peers_works (in_peers out_peers : Nat)
    (ops : List AdmissionOp) :
    slotsOk (admRun (initialManager in_peers out_peers) ops) ∧
    (∀ m : PeerSetManager,
      (admStep m (AdmissionOp.inbound PeerClass.Reserved)).2 = true) ∧
    (admAccepts (initialManager 4294967295 8)
        (List.replicate 32 (AdmissionOp.inbound PeerClass.Regular))).all
        (fun b => b) = true ∧
    (admRun (initialManager 4294967295 8)
        (List.replicate 32 (AdmissionOp.inbound PeerClass.Regular))).in_peers_used
        = 32 ∧
    runFrom 3 "/foo" (initialSubstream 8 16)
        [Action.openRequest, Action.negotiationSuccess none,
          Action.remoteClose, Action.teardownComplete] =
      [Event.StreamOpened 3 "/foo" none, Event.StreamClosed 3 "/foo"] := by
  refine ⟨?_, fun m => rfl, by decide, by decide, by decide⟩
  exact admRun_slotsOk ops (initialManager in_peers out_peers)
    ⟨Nat.zero_le _, Nat.zero_le _⟩

end Network

namespace Wasm

/-- Closed instance of C10 at a freshly constructed exchangeable
function, whose state is `Original`, so replacement does not panic. -/
theorem replace_implementation_panics_iff_witness :
    ((ExchangeableFunction.new 1).replace_implementation 2 = none ↔
      (ExchangeableFunction.new 1).state = ExchangeableFunctionState.Replaced) :=
  (replace_implementation_panics_iff (ExchangeableFunction.new 1) 2).1

end Wasm
